import Mathlib

/-!
Verification of the uploadly-pics-simple front end.

The development shallowly embeds the two stateful components of the
repository:

* the `ImageUpload` component (gallery state, `uploadImage`, `removeImage`,
  the `uploading` flag), and
* the `Index` page (`handleSignOut`, the gating of the upload panel on the
  presence of a user).

External providers (Supabase storage and auth) are modelled as oracles: a
call outcome is an `ApiResult` supplied as a parameter, and the synchronous
`getPublicUrl` resolver is an arbitrary function parameter `gpu`.  Since the
TypeScript handlers wrap every provider call in `try`/`catch` (or check the
returned `error` field), the embedded operations are total functions: no
exception escapes, which the types make explicit.
-/

/-- A gallery entry, mirroring the `UploadedImage` interface of the source
(fields `id`, `url`, `name`). -/
structure UploadedImage where
  id : String
  url : String
  name : String
deriving DecidableEq, Repr

/-- The part of a browser `File` object the component reads: its original
name and its MIME type string. -/
structure UFile where
  name : String
  mime : String
deriving DecidableEq, Repr

/-- Outcome of a provider call: the Supabase client resolves with either no
error (`ok`) or an error carrying a message (`err`). -/
inductive ApiResult where
  | ok : ApiResult
  | err (message : String) : ApiResult
deriving DecidableEq, Repr

/-- A toast notification as issued by the component: title, description and
whether the `destructive` variant was used. -/
structure Toast where
  title : String
  description : String
  destructive : Bool
deriving DecidableEq, Repr

/-- JavaScript's `String.prototype.startsWith`, embedded computably:
`strStartsWith s p` is true when the characters of `p` are a prefix of the
characters of `s` (receiver first, as in `s.startsWith(p)`). -/
def strStartsWith (s p : String) : Bool :=
  p.data.isPrefixOf s.data

/-- Toast shown when the dropped file is not an image (source lines 22-26). -/
def invalidFileTypeToast : Toast :=
  { title := "Invalid file type"
    description := "Please upload an image file"
    destructive := true }

/-- Toast shown after a successful upload (source lines 52-55). -/
def uploadSuccessToast : Toast :=
  { title := "Upload successful!"
    description := "Your image has been uploaded"
    destructive := false }

/-- Toast shown when the storage upload fails (source lines 58-62). -/
def uploadFailedToast : Toast :=
  { title := "Upload failed"
    description := "There was an error uploading your image"
    destructive := true }

/-- Toast shown after a successful delete (source lines 101-104). -/
def imageDeletedToast : Toast :=
  { title := "Image deleted"
    description := "Image has been removed"
    destructive := false }

/-- Toast shown when the storage delete fails (source lines 107-111). -/
def deleteFailedToast : Toast :=
  { title := "Delete failed"
    description := "There was an error deleting the image"
    destructive := true }

/-- The storage key built at source line 31:
the current timestamp in milliseconds, a dash, then the original file name. -/
def mkFileName (now : Nat) (name : String) : String :=
  Nat.repr now ++ "-" ++ name

/-- The gallery entry built at source lines 44-48 for a successful upload:
`id` is the storage key, `url` is the public URL the provider resolves for
that key in the `images` bucket, `name` is the original file name. -/
def mkEntry (gpu : String → String → String) (now : Nat) (file : UFile) :
    UploadedImage :=
  { id := mkFileName now file.name
    url := gpu "images" (mkFileName now file.name)
    name := file.name }

/-- Result of one `uploadImage` call: the new gallery list, the toast that
was shown, and whether the storage provider's `upload` was invoked. -/
structure UploadOutcome where
  gallery : List UploadedImage
  toast : Toast
  storageCalled : Bool
deriving DecidableEq, Repr

/-- Embedding of `uploadImage` (source lines 20-66).  `gpu` is the
provider's `getPublicUrl` resolver, `now` the value of `Date.now()` at call
time, `result` the outcome of the storage `upload` call, `gallery` the list
held in state when the resolution runs.  A non-image MIME type returns
early with a toast and no storage call; a storage error is caught and
turned into a toast, leaving the gallery unchanged; success prepends the
new entry. -/
def uploadImage (gpu : String → String → String) (now : Nat) (file : UFile)
    (result : ApiResult) (gallery : List UploadedImage) : UploadOutcome :=
  if !(strStartsWith file.mime "image/") then
    { gallery := gallery, toast := invalidFileTypeToast, storageCalled := false }
  else
    match result with
    | .ok =>
        { gallery := mkEntry gpu now file :: gallery
          toast := uploadSuccessToast
          storageCalled := true }
    | .err _ =>
        { gallery := gallery, toast := uploadFailedToast, storageCalled := true }

/-- Result of one `removeImage` call: the new gallery list and the toast
that was shown. -/
structure RemoveOutcome where
  gallery : List UploadedImage
  toast : Toast
deriving DecidableEq, Repr

/-- Embedding of `removeImage` (source lines 91-113).  On a successful
storage `remove`, the state updater keeps exactly the entries whose `id`
differs from `imageId` (source line 99); a storage error is caught and
turned into a toast, leaving the gallery unchanged. -/
def removeImage (imageId : String) (result : ApiResult)
    (gallery : List UploadedImage) : RemoveOutcome :=
  match result with
  | .ok =>
      { gallery := gallery.filter (fun img => img.id != imageId)
        toast := imageDeletedToast }
  | .err _ =>
      { gallery := gallery, toast := deleteFailedToast }

/-- One completed interaction with the gallery state: an upload (with the
timestamp read at its start, the file, and the storage outcome) or a delete
(with the target id and the storage outcome).  State updates in the source
are functional (`setUploadedImages(prev => ...)`), so each completed call
applies atomically to the list and any interleaving of calls is some
sequence of `Op`s. -/
inductive Op where
  | upload (now : Nat) (file : UFile) (result : ApiResult) : Op
  | remove (imageId : String) (result : ApiResult) : Op
deriving DecidableEq, Repr

/-- Effect of one completed operation on the gallery list. -/
def step (gpu : String → String → String) (g : List UploadedImage) :
    Op → List UploadedImage
  | .upload now file result => (uploadImage gpu now file result g).gallery
  | .remove imageId result => (removeImage imageId result g).gallery

/-- The gallery list after a sequence of completed operations, starting
from the initial empty list of `useState<UploadedImage[]>([])`. -/
def run (gpu : String → String → String) (ops : List Op) :
    List UploadedImage :=
  ops.foldl (step gpu) []

/-- `op` is a successful storage delete of the key `x`. -/
def removesId (x : String) : Op → Prop
  | .remove y .ok => y = x
  | _ => False

instance (x : String) (op : Op) : Decidable (removesId x op) := by
  unfold removesId; cases op with
  | upload _ _ _ => exact inferInstance
  | remove y r => cases r <;> exact inferInstance

/-- No operation in `ops` is a successful storage delete of the key `x`. -/
def keeps (x : String) (ops : List Op) : Prop :=
  ∀ op ∈ ops, ¬ removesId x op

/-- `op` is an upload that passed the MIME check, whose storage call
succeeded, and whose resulting gallery entry is `e`. -/
def uploadCreates (gpu : String → String → String) (e : UploadedImage) :
    Op → Prop
  | .upload now file .ok =>
      strStartsWith file.mime "image/" = true ∧ e = mkEntry gpu now file
  | _ => False

/-- Some operation in the sequence is a successful upload creating `e`, and
no later operation is a successful delete of `e.id`. -/
def createdIn (gpu : String → String → String) (e : UploadedImage) :
    List Op → Prop
  | [] => False
  | op :: rest =>
      (uploadCreates gpu e op ∧ keeps e.id rest) ∨ createdIn gpu e rest

/-- Shape of every gallery entry: its `url` is the public URL the provider
resolves for its `id` in the `images` bucket, and its `id` is a timestamp
rendering followed by a dash followed by its `name`. -/
def WellFormed (gpu : String → String → String) (e : UploadedImage) : Prop :=
  e.url = gpu "images" e.id ∧ ∃ t : Nat, e.id = Nat.repr t ++ "-" ++ e.name

/-- One write to the `uploading` flag trace: a valid upload starting
(source line 30, `setUploading(true)`, as its storage call begins) or any
upload completing (source line 64, `setUploading(false)` in `finally`). -/
inductive FlagEvent where
  | start : FlagEvent
  | finish : FlagEvent
deriving DecidableEq, Repr

/-- The `uploading` flag as the code maintains it, together with the ghost
count of outstanding uploads (started and not yet completed). -/
structure FlagState where
  uploading : Bool
  outstanding : Nat
deriving DecidableEq, Repr

/-- Effect of one flag write: each starting upload sets the flag to `true`,
each completing upload sets it to `false`, regardless of how many other
uploads are still outstanding. -/
def flagStep (s : FlagState) : FlagEvent → FlagState
  | .start => { uploading := true, outstanding := s.outstanding + 1 }
  | .finish => { uploading := false, outstanding := s.outstanding - 1 }

/-- Flag state after a sequence of start/finish events, from the initial
`useState(false)`. -/
def runFlag (events : List FlagEvent) : FlagState :=
  events.foldl flagStep { uploading := false, outstanding := 0 }

/-- Toast shown by `handleSignOut` when the provider's sign-out fails
(Index.tsx lines 44-48): the description is exactly the provider's error
message. -/
def signOutErrorToast (message : String) : Toast :=
  { title := "Error signing out", description := message, destructive := true }

/-- Toast shown by `handleSignOut` on success (Index.tsx lines 50-53). -/
def signedOutToast : Toast :=
  { title := "Signed out successfully"
    description := "You've been logged out."
    destructive := false }

/-- Embedding of `handleSignOut` (Index.tsx lines 41-55): issues a toast
depending on the sign-out outcome; the local user state is not written on
either branch (it only changes through the auth-state subscription), so the
handler passes it through unchanged. -/
def handleSignOut (result : ApiResult) (user : Option String) :
    Toast × Option String :=
  match result with
  | .err m => (signOutErrorToast m, user)
  | .ok => (signedOutToast, user)

/-- Whether the page renders the upload panel (Index.tsx lines 57-89): only
when loading is over and a user is present. -/
def rendersUploadPanel (loading : Bool) (user : Option String) : Bool :=
  !loading && user.isSome

/-!
### Decimal rendering of timestamps

`Nat.repr` (used implicitly by the template literal at source line 31)
renders the timestamp in decimal.  The facts needed about it: its digits
never include a dash, and it is injective.  Both are proved through
`decRepr`, a fuel-free restatement of core's fuel-based `Nat.toDigitsCore`.
-/

/-- Decimal digit list of a natural number, most significant digit first;
fuel-free counterpart of `Nat.toDigitsCore` at base 10. -/
def decRepr (n : Nat) : List Char :=
  if _h : n < 10 then [Nat.digitChar n]
  else decRepr (n / 10) ++ [Nat.digitChar (n % 10)]
decreasing_by exact Nat.div_lt_self (by omega) (by omega)

lemma toDigitsCore_eq_decRepr (n : Nat) : ∀ (fuel : Nat) (ds : List Char),
    n < fuel → Nat.toDigitsCore 10 fuel n ds = decRepr n ++ ds := by
  induction n using Nat.strong_induction_on with
  | _ n ih =>
    intro fuel ds hlt
    match fuel, hlt with
    | fuel + 1, hlt =>
      rw [Nat.toDigitsCore]
      by_cases h10 : n < 10
      · have hdiv : n / 10 = 0 := Nat.div_eq_of_lt h10
        have hmod : n % 10 = n := Nat.mod_eq_of_lt h10
        simp only [hdiv, if_pos rfl, hmod]
        rw [decRepr, dif_pos h10]
        rfl
      · have hdiv : n / 10 ≠ 0 := by omega
        rw [if_neg hdiv]
        have hlt' : n / 10 < fuel := by omega
        rw [ih (n / 10) (Nat.div_lt_self (by omega) (by omega)) fuel _ hlt']
        conv_rhs => rw [decRepr]
        rw [dif_neg h10]
        simp

lemma decRepr_ne_nil (n : Nat) : decRepr n ≠ [] := by
  rw [decRepr]
  split
  · simp
  · simp

lemma toDigits_eq_decRepr (n : Nat) : Nat.toDigits 10 n = decRepr n := by
  rw [Nat.toDigits, toDigitsCore_eq_decRepr n (n + 1) [] (by omega)]
  simp

lemma repr_data_eq_decRepr (n : Nat) : (Nat.repr n).data = decRepr n := by
  rw [Nat.repr, toDigits_eq_decRepr]
  rfl

lemma digitChar_inj_lt ⦃a b : Nat⦄ (ha : a < 10) (hb : b < 10)
    (h : Nat.digitChar a = Nat.digitChar b) : a = b := by
  interval_cases a <;> interval_cases b <;> first | rfl | exact absurd h (by decide)

lemma digitChar_ne_dash (n : Nat) : Nat.digitChar n ≠ '-' := by
  rcases Nat.lt_or_ge n 16 with h16 | h16
  · interval_cases n <;> decide
  · have hs : Nat.digitChar n = '*' := by
      unfold Nat.digitChar
      rw [if_neg (show ¬ n = 0 by omega),
        if_neg (show ¬ n = 1 by omega),
        if_neg (show ¬ n = 2 by omega),
        if_neg (show ¬ n = 3 by omega),
        if_neg (show ¬ n = 4 by omega),
        if_neg (show ¬ n = 5 by omega),
        if_neg (show ¬ n = 6 by omega),
        if_neg (show ¬ n = 7 by omega),
        if_neg (show ¬ n = 8 by omega),
        if_neg (show ¬ n = 9 by omega),
        if_neg (show ¬ n = 10 by omega),
        if_neg (show ¬ n = 11 by omega),
        if_neg (show ¬ n = 12 by omega),
        if_neg (show ¬ n = 13 by omega),
        if_neg (show ¬ n = 14 by omega),
        if_neg (show ¬ n = 15 by omega)]
    rw [hs]; decide

lemma decRepr_no_dash (n : Nat) : '-' ∉ decRepr n := by
  induction n using Nat.strong_induction_on with
  | _ n ih =>
    rw [decRepr]
    split
    · simp only [List.mem_singleton]
      exact fun h => digitChar_ne_dash n h.symm
    · rename_i h10
      simp only [List.mem_append, List.mem_singleton]
      rintro (hmem | heq)
      · exact ih (n / 10) (Nat.div_lt_self (by omega) (by omega)) hmem
      · exact digitChar_ne_dash (n % 10) heq.symm

lemma decRepr_lt10 (n : Nat) (h : n < 10) : decRepr n = [Nat.digitChar n] := by
  rw [decRepr]; exact dif_pos h

lemma decRepr_ge10 (n : Nat) (h : ¬ n < 10) :
    decRepr n = decRepr (n / 10) ++ [Nat.digitChar (n % 10)] := by
  rw [decRepr]; exact dif_neg h

lemma decRepr_inj : ∀ (m n : Nat), decRepr m = decRepr n → m = n := by
  intro m
  induction m using Nat.strong_induction_on with
  | _ m ih =>
    intro n h
    by_cases hm : m < 10 <;> by_cases hn : n < 10
    · rw [decRepr_lt10 m hm, decRepr_lt10 n hn] at h
      exact digitChar_inj_lt hm hn (List.singleton_injective h)
    · rw [decRepr_lt10 m hm, decRepr_ge10 n hn] at h
      have := congrArg List.length h
      simp at this
      have := decRepr_ne_nil (n / 10)
      cases hrn : decRepr (n / 10) <;> simp_all
    · rw [decRepr_ge10 m hm, decRepr_lt10 n hn] at h
      have := congrArg List.length h
      simp at this
      have := decRepr_ne_nil (m / 10)
      cases hrm : decRepr (m / 10) <;> simp_all
    · rw [decRepr_ge10 m hm, decRepr_ge10 n hn] at h
      have hsp := List.append_inj' h (by simp)
      have h1 : m / 10 = n / 10 :=
        ih (m / 10) (Nat.div_lt_self (by omega) (by omega)) (n / 10) hsp.1
      have h2 : m % 10 = n % 10 :=
        digitChar_inj_lt (Nat.mod_lt m (by omega)) (Nat.mod_lt n (by omega))
          (List.singleton_injective hsp.2)
      omega

lemma nat_repr_inj {m n : Nat} (h : Nat.repr m = Nat.repr n) : m = n :=
  decRepr_inj m n (by rw [← repr_data_eq_decRepr, ← repr_data_eq_decRepr, h])

lemma repr_no_dash (n : Nat) : '-' ∉ (Nat.repr n).data := by
  rw [repr_data_eq_decRepr]; exact decRepr_no_dash n

lemma append_dash_inj : ∀ (l1 : List Char) {l2 m1 m2 : List Char},
    '-' ∉ l1 → '-' ∉ l2 → l1 ++ '-' :: m1 = l2 ++ '-' :: m2 →
    l1 = l2 ∧ m1 = m2 := by
  intro l1
  induction l1 with
  | nil =>
    intro l2 m1 m2 _ h2 h
    cases l2 with
    | nil => simpa using h
    | cons c l2' =>
      simp only [List.nil_append, List.cons_append, List.cons.injEq] at h
      exact absurd (h.1 ▸ List.mem_cons_self c l2') h2
  | cons c l1' ih =>
    intro l2 m1 m2 h1 h2 h
    cases l2 with
    | nil =>
      simp only [List.cons_append, List.nil_append, List.cons.injEq] at h
      exact absurd (h.1 ▸ List.mem_cons_self c l1') h1
    | cons d l2' =>
      simp only [List.cons_append, List.cons.injEq] at h
      obtain ⟨rfl, htail⟩ := h
      have h1' : '-' ∉ l1' := fun hm => h1 (List.mem_cons_of_mem _ hm)
      have h2' : '-' ∉ l2' := fun hm => h2 (List.mem_cons_of_mem _ hm)
      obtain ⟨rfl, rfl⟩ := ih h1' h2' htail
      exact ⟨rfl, rfl⟩

/-- Two uploads receive the same storage key exactly when they share both
the timestamp and the original file name. -/
lemma mkFileName_eq_iff (t1 t2 : Nat) (n1 n2 : String) :
    mkFileName t1 n1 = mkFileName t2 n2 ↔ t1 = t2 ∧ n1 = n2 := by
  constructor
  · intro h
    have hd := congrArg String.data h
    simp only [mkFileName, String.data_append] at hd
    have hd' : (Nat.repr t1).data ++ '-' :: n1.data =
        (Nat.repr t2).data ++ '-' :: n2.data := by
      simpa [List.append_assoc] using hd
    obtain ⟨hrepr, hname⟩ :=
      append_dash_inj _ (repr_no_dash t1) (repr_no_dash t2) hd'
    exact ⟨nat_repr_inj (String.ext hrepr), String.ext hname⟩
  · rintro ⟨rfl, rfl⟩
    rfl

/-!
### Supporting lemmas about single steps and traces
-/

lemma keeps_nil (x : String) : keeps x [] := by
  simp [keeps]

lemma keeps_cons {x : String} {op : Op} {rest : List Op} :
    keeps x (op :: rest) ↔ ¬ removesId x op ∧ keeps x rest := by
  simp [keeps, List.forall_mem_cons]

lemma step_upload_ok_valid (gpu : String → String → String)
    (g : List UploadedImage) (now : Nat) (file : UFile)
    (hm : strStartsWith file.mime "image/" = true) :
    step gpu g (.upload now file .ok) = mkEntry gpu now file :: g := by
  simp [step, uploadImage, hm]

lemma step_upload_invalid (gpu : String → String → String)
    (g : List UploadedImage) (now : Nat) (file : UFile) (r : ApiResult)
    (hm : strStartsWith file.mime "image/" = false) :
    step gpu g (.upload now file r) = g := by
  cases r <;> simp [step, uploadImage, hm]

lemma step_upload_err (gpu : String → String → String)
    (g : List UploadedImage) (now : Nat) (file : UFile) (m : String) :
    step gpu g (.upload now file (.err m)) = g := by
  by_cases hm : strStartsWith file.mime "image/" <;> simp [step, uploadImage, hm]

lemma step_remove_ok (gpu : String → String → String)
    (g : List UploadedImage) (x : String) :
    step gpu g (.remove x .ok) = g.filter (fun img => img.id != x) := rfl

lemma step_remove_err (gpu : String → String → String)
    (g : List UploadedImage) (x m : String) :
    step gpu g (.remove x (.err m)) = g := rfl

lemma or_and_iff_a (A B C K R : Prop) (hR : ¬ R) :
    A ∨ (B ∨ C) ∧ K ↔ (B ∧ K ∨ A) ∨ C ∧ (¬ R ∧ K) := by tauto

lemma or_and_iff_b (A C K U R : Prop) (hU : ¬ U) (hR : ¬ R) :
    A ∨ C ∧ K ↔ (U ∧ K ∨ A) ∨ C ∧ (¬ R ∧ K) := by tauto

lemma or_and_iff_c (A C K U R : Prop) (hU : ¬ U) :
    A ∨ (C ∧ ¬ R) ∧ K ↔ (U ∧ K ∨ A) ∨ C ∧ (¬ R ∧ K) := by tauto

lemma mem_foldl_step (gpu : String → String → String) (e : UploadedImage) :
    ∀ (ops : List Op) (g : List UploadedImage),
    e ∈ ops.foldl (step gpu) g ↔
      createdIn gpu e ops ∨ (e ∈ g ∧ keeps e.id ops) := by
  intro ops
  induction ops with
  | nil =>
    intro g
    simp [createdIn, keeps_nil]
  | cons op rest ih =>
    intro g
    rw [List.foldl_cons, ih (step gpu g op), createdIn, keeps_cons]
    cases op with
    | upload now file r =>
      have hrem : ¬ removesId e.id (.upload now file r) := fun h => h
      cases r with
      | ok =>
        by_cases hm : strStartsWith file.mime "image/" = true
        · rw [step_upload_ok_valid gpu g now file hm]
          have hc : uploadCreates gpu e (.upload now file .ok) ↔
              e = mkEntry gpu now file := by
            simp [uploadCreates, hm]
          rw [hc]
          simp only [List.mem_cons]
          exact or_and_iff_a _ _ _ _ _ hrem
        · have hm' : strStartsWith file.mime "image/" = false := by
            simpa using hm
          rw [step_upload_invalid gpu g now file .ok hm']
          have hc : ¬ uploadCreates gpu e (.upload now file .ok) := by
            simp [uploadCreates, hm']
          exact or_and_iff_b _ _ _ _ _ hc hrem
      | err m =>
        rw [step_upload_err gpu g now file m]
        exact or_and_iff_b _ _ _ _ _ (fun h => h) hrem
    | remove x r =>
      cases r with
      | ok =>
        rw [step_remove_ok gpu g x]
        have hrw : removesId e.id (.remove x .ok) = (x = e.id) := rfl
        have hmem : e ∈ g.filter (fun img => img.id != x) ↔
            e ∈ g ∧ ¬ x = e.id := by
          simp only [List.mem_filter, bne_iff_ne]
          exact and_congr_right fun _ => ne_comm
        rw [hrw, hmem]
        exact or_and_iff_c _ _ _ _ _ (fun h => h)
      | err m =>
        rw [step_remove_err gpu g x m]
        exact or_and_iff_b _ _ _ _ _ (fun h => h) (fun h => h)

lemma wellFormed_mkEntry (gpu : String → String → String) (now : Nat)
    (file : UFile) : WellFormed gpu (mkEntry gpu now file) :=
  ⟨rfl, now, rfl⟩

lemma wf_step (gpu : String → String → String) (g : List UploadedImage)
    (op : Op) (h : ∀ e ∈ g, WellFormed gpu e) :
    ∀ e ∈ step gpu g op, WellFormed gpu e := by
  cases op with
  | upload now file r =>
    cases r with
    | ok =>
      by_cases hm : strStartsWith file.mime "image/" = true
      · rw [step_upload_ok_valid gpu g now file hm]
        intro e he
        rcases List.mem_cons.mp he with rfl | he'
        · exact wellFormed_mkEntry gpu now file
        · exact h e he'
      · have hm' : strStartsWith file.mime "image/" = false := by simpa using hm
        rw [step_upload_invalid gpu g now file .ok hm']
        exact h
    | err m =>
      rw [step_upload_err gpu g now file m]
      exact h
  | remove x r =>
    cases r with
    | ok =>
      rw [step_remove_ok gpu g x]
      intro e he
      exact h e (List.mem_filter.mp he).1
    | err m =>
      rw [step_remove_err gpu g x m]
      exact h

lemma wf_foldl (gpu : String → String → String) :
    ∀ (ops : List Op) (g : List UploadedImage),
    (∀ e ∈ g, WellFormed gpu e) →
    ∀ e ∈ ops.foldl (step gpu) g, WellFormed gpu e := by
  intro ops
  induction ops with
  | nil => intro g h; simpa using h
  | cons op rest ih =>
    intro g h
    rw [List.foldl_cons]
    exact ih (step gpu g op) (wf_step gpu g op h)

/-!
### Claim theorems
-/

/-- Claim C1: for every file whose MIME type does not start with "image/",
`uploadImage` returns without invoking the storage provider's upload, shows
the invalid-file-type notification, and leaves the gallery list unchanged.
It also does not throw: the embedded handler is a total function, matching
the early `return` of the source. -/
theorem uploadImage_non_image_rejected (gpu : String → String → String)
    (now : Nat) (file : UFile) (result : ApiResult) (g : List UploadedImage)
    (h : strStartsWith file.mime "image/" = false) :
    uploadImage gpu now file result g =
      { gallery := g, toast := invalidFileTypeToast, storageCalled := false } := by
  simp [uploadImage, h]

/-- Witness for C1: a PDF drop is rejected with the invalid-type toast, no
storage call, and an unchanged gallery. -/
theorem uploadImage_non_image_rejected_witness :
    uploadImage (fun b k => b ++ "/" ++ k) 5
        { name := "doc.pdf", mime := "application/pdf" } .ok [] =
      { gallery := [], toast := invalidFileTypeToast, storageCalled := false } :=
  uploadImage_non_image_rejected (fun b k => b ++ "/" ++ k) 5
    { name := "doc.pdf", mime := "application/pdf" } .ok [] (by decide)

/-- Claim C2: for every upload whose storage call succeeds, exactly one new
entry is prepended to the front of the gallery list, and its `id` is the
timestamp taken at call time, a dash, and the file's original name. -/
theorem uploadImage_ok_prepends (gpu : String → String → String) (now : Nat)
    (file : UFile) (g : List UploadedImage)
    (h : strStartsWith file.mime "image/" = true) :
    (uploadImage gpu now file .ok g).gallery = mkEntry gpu now file :: g ∧
    (mkEntry gpu now file).id = Nat.repr now ++ "-" ++ file.name :=
  ⟨by simp [uploadImage, h], rfl⟩

/-- Witness for C2: a successful PNG upload at time 7 prepends the single
entry with id "7-cat.png" to a one-element gallery. -/
theorem uploadImage_ok_prepends_witness :
    (uploadImage (fun b k => b ++ "/" ++ k) 7
        { name := "cat.png", mime := "image/png" } .ok
        [{ id := "1-old.png", url := "u", name := "old.png" }]).gallery =
      mkEntry (fun b k => b ++ "/" ++ k) 7
          { name := "cat.png", mime := "image/png" } ::
        [{ id := "1-old.png", url := "u", name := "old.png" }] ∧
    (mkEntry (fun b k => b ++ "/" ++ k) 7
        { name := "cat.png", mime := "image/png" }).id =
      Nat.repr 7 ++ "-" ++ "cat.png" :=
  uploadImage_ok_prepends (fun b k => b ++ "/" ++ k) 7
    { name := "cat.png", mime := "image/png" }
    [{ id := "1-old.png", url := "u", name := "old.png" }] (by decide)

/-- Claim C3: for every delete whose storage call succeeds, the entries
whose id equals the given `imageId` are removed, and every entry whose id
differs is unaffected: the result is a sublist of the original (same
relative order), contains no entry with the deleted id, still contains
every differing entry, and preserves each differing entry's multiplicity. -/
theorem removeImage_ok_removes (x : String) (g : List UploadedImage) :
    ((removeImage x .ok g).gallery).Sublist g ∧
    (∀ e ∈ (removeImage x .ok g).gallery, e.id ≠ x) ∧
    (∀ e ∈ g, e.id ≠ x → e ∈ (removeImage x .ok g).gallery) ∧
    (∀ e : UploadedImage, e.id ≠ x →
      (removeImage x .ok g).gallery.count e = g.count e) := by
  refine ⟨List.filter_sublist g, ?_, ?_, ?_⟩
  · intro e he
    exact bne_iff_ne.mp (List.mem_filter.mp he).2
  · intro e he hne
    exact List.mem_filter.mpr ⟨he, bne_iff_ne.mpr hne⟩
  · intro e hne
    exact List.count_filter (by simpa [bne_iff_ne] using hne)

/-- Witness for C3: deleting "2-b.png" from a three-entry gallery with a
duplicate of the other id keeps both copies of "1-a.png" in order. -/
theorem removeImage_ok_removes_witness :
    ((removeImage "2-b.png" .ok
        [{ id := "1-a.png", url := "u1", name := "a.png" },
         { id := "2-b.png", url := "u2", name := "b.png" },
         { id := "1-a.png", url := "u1", name := "a.png" }]).gallery).Sublist
      [{ id := "1-a.png", url := "u1", name := "a.png" },
       { id := "2-b.png", url := "u2", name := "b.png" },
       { id := "1-a.png", url := "u1", name := "a.png" }] ∧
    (∀ e ∈ (removeImage "2-b.png" .ok
        [{ id := "1-a.png", url := "u1", name := "a.png" },
         { id := "2-b.png", url := "u2", name := "b.png" },
         { id := "1-a.png", url := "u1", name := "a.png" }]).gallery,
      e.id ≠ "2-b.png") ∧
    (∀ e ∈ [{ id := "1-a.png", url := "u1", name := "a.png" },
            { id := "2-b.png", url := "u2", name := "b.png" },
            { id := "1-a.png", url := "u1", name := "a.png" }],
      e.id ≠ "2-b.png" →
      e ∈ (removeImage "2-b.png" .ok
        [{ id := "1-a.png", url := "u1", name := "a.png" },
         { id := "2-b.png", url := "u2", name := "b.png" },
         { id := "1-a.png", url := "u1", name := "a.png" }]).gallery) ∧
    (∀ e : UploadedImage, e.id ≠ "2-b.png" →
      ((removeImage "2-b.png" .ok
        [{ id := "1-a.png", url := "u1", name := "a.png" },
         { id := "2-b.png", url := "u2", name := "b.png" },
         { id := "1-a.png", url := "u1", name := "a.png" }]).gallery).count e =
      ([{ id := "1-a.png", url := "u1", name := "a.png" },
        { id := "2-b.png", url := "u2", name := "b.png" },
        { id := "1-a.png", url := "u1", name := "a.png" }]).count e) :=
  removeImage_ok_removes "2-b.png"
    [{ id := "1-a.png", url := "u1", name := "a.png" },
     { id := "2-b.png", url := "u2", name := "b.png" },
     { id := "1-a.png", url := "u1", name := "a.png" }]

/-- Claim C4: calling `removeImage` on an id no entry carries (in
particular, an id already removed) does not throw — the embedded handler is
total — and leaves the gallery list unchanged, whether the storage provider
reports success or any error such as not-found. -/
theorem removeImage_absent_id_noop (x : String) (g : List UploadedImage)
    (h : ∀ e ∈ g, e.id ≠ x) :
    ∀ result : ApiResult, (removeImage x result g).gallery = g := by
  intro result
  cases result with
  | ok =>
    show g.filter (fun img => img.id != x) = g
    rw [List.filter_eq_self]
    intro e he
    exact bne_iff_ne.mpr (h e he)
  | err m => rfl

/-- Witness for C4: deleting "9-gone.png" from a gallery that no longer
holds it is a no-op both on provider success and on a not-found error. -/
theorem removeImage_absent_id_noop_witness :
    (removeImage "9-gone.png" .ok
        [{ id := "1-a.png", url := "u1", name := "a.png" }]).gallery =
      [{ id := "1-a.png", url := "u1", name := "a.png" }] ∧
    (removeImage "9-gone.png" (.err "not-found")
        [{ id := "1-a.png", url := "u1", name := "a.png" }]).gallery =
      [{ id := "1-a.png", url := "u1", name := "a.png" }] :=
  ⟨removeImage_absent_id_noop "9-gone.png"
      [{ id := "1-a.png", url := "u1", name := "a.png" }] (by decide) .ok,
   removeImage_absent_id_noop "9-gone.png"
      [{ id := "1-a.png", url := "u1", name := "a.png" }] (by decide)
      (.err "not-found")⟩

/-- Claim C5: for every delete whose storage call fails, `removeImage`
shows the destructive delete-failed notification and the gallery list is
exactly the list it held before the call. -/
theorem removeImage_err_atomic (x m : String) (g : List UploadedImage) :
    (removeImage x (.err m) g).gallery = g ∧
    (removeImage x (.err m) g).toast = deleteFailedToast ∧
    deleteFailedToast.destructive = true :=
  ⟨rfl, rfl, rfl⟩

/-- Claim C6: in every state reachable by a sequence of completed
`uploadImage` and `removeImage` calls, an entry is in the gallery list
exactly when some successful upload created it and no later successful
delete targeted its id.  The forward direction says no entry whose delete
call succeeded (and was not re-created afterwards) survives; the backward
direction says no entry whose upload call succeeded is silently dropped. -/
theorem gallery_mem_iff_created (gpu : String → String → String)
    (ops : List Op) (e : UploadedImage) :
    e ∈ run gpu ops ↔ createdIn gpu e ops := by
  rw [run, mem_foldl_step]
  simp

/-- Claim C8 (code bug): the single `uploading` flag does not reflect
whether at least one upload is outstanding.  After the event sequence
"upload A starts, upload B starts, upload A completes", one upload is still
outstanding, yet A's `finally` block has set the flag to `false`. -/
theorem uploading_flag_false_despite_outstanding :
    (runFlag [.start, .start, .finish]).uploading = false ∧
    (runFlag [.start, .start, .finish]).outstanding = 1 :=
  ⟨rfl, rfl⟩

/-- Claim C9: when the sign-out call fails with a message, the shown
notification carries exactly the provider's message and is destructive, the
local user state is unchanged (so the upload panel stays rendered), and on
success the confirmation notification is shown with the user state likewise
untouched. -/
theorem handleSignOut_behaviour (m : String) (u : Option String) :
    handleSignOut (.err m) u = (signOutErrorToast m, u) ∧
    (signOutErrorToast m).description = m ∧
    (signOutErrorToast m).destructive = true ∧
    rendersUploadPanel false (handleSignOut (.err m) u).2 =
      rendersUploadPanel false u ∧
    handleSignOut .ok u = (signedOutToast, u) :=
  ⟨rfl, rfl, rfl, rfl, rfl⟩

/-- Claim C10: every entry in any reachable gallery state is well-formed:
its url is the public URL the provider resolves for its id in the "images"
bucket, and its id is a timestamp rendering, a dash, then its name (so the
name is a suffix of the id).  Both operations preserve this for all
remaining entries since every reachable state is `run` of some trace. -/
theorem run_entries_wellFormed (gpu : String → String → String)
    (ops : List Op) : ∀ e ∈ run gpu ops, WellFormed gpu e :=
  wf_foldl gpu ops [] (by simp)

/-- Witness for C10: the entry produced by a successful upload at time 7 of
"cat.png" is well-formed. -/
theorem run_entries_wellFormed_witness :
    WellFormed (fun b k => b ++ "/" ++ k)
      { id := "7-cat.png", url := "images/7-cat.png", name := "cat.png" } :=
  run_entries_wellFormed (fun b k => b ++ "/" ++ k)
    [.upload 7 { name := "cat.png", mime := "image/png" } .ok]
    { id := "7-cat.png", url := "images/7-cat.png", name := "cat.png" }
    (by decide)

/-- Counterexample to claim C7 as stated: three valid image files dropped
together can all carry the same name and be stamped in the same
millisecond; the gallery then ends with 3 entries whose ids are NOT
pairwise distinct — the storage key is not unique per upload. -/
theorem upload_ids_collide :
    (run (fun b k => b ++ "/" ++ k)
        [.upload 0 { name := "a.png", mime := "image/png" } .ok,
         .upload 0 { name := "a.png", mime := "image/png" } .ok,
         .upload 0 { name := "a.png", mime := "image/png" } .ok]).length = 3 ∧
    ¬ ((run (fun b k => b ++ "/" ++ k)
        [.upload 0 { name := "a.png", mime := "image/png" } .ok,
         .upload 0 { name := "a.png", mime := "image/png" } .ok,
         .upload 0 { name := "a.png", mime := "image/png" } .ok]).map
        UploadedImage.id).Nodup := by
  refine ⟨rfl, ?_⟩
  decide

/-- Claim C7 as amended: two uploads receive the same key exactly when they
share both the timestamp and the original file name, so keys are unique per
upload provided no two uploads share both; in particular, for 3 valid image
files whose (timestamp, name) pairs are pairwise distinct, the gallery ends
with 3 entries that are pairwise distinct by id. -/
theorem upload_ids_distinct_of_distinct_keys (gpu : String → String → String)
    (t1 t2 t3 : Nat) (f1 f2 f3 : UFile)
    (hv1 : strStartsWith f1.mime "image/" = true)
    (hv2 : strStartsWith f2.mime "image/" = true)
    (hv3 : strStartsWith f3.mime "image/" = true)
    (h12 : (t1, f1.name) ≠ (t2, f2.name))
    (h13 : (t1, f1.name) ≠ (t3, f3.name))
    (h23 : (t2, f2.name) ≠ (t3, f3.name)) :
    (run gpu [.upload t1 f1 .ok, .upload t2 f2 .ok, .upload t3 f3 .ok]).length
      = 3 ∧
    ((run gpu [.upload t1 f1 .ok, .upload t2 f2 .ok, .upload t3 f3 .ok]).map
      UploadedImage.id).Nodup := by
  have hrun : run gpu [.upload t1 f1 .ok, .upload t2 f2 .ok, .upload t3 f3 .ok]
      = [mkEntry gpu t3 f3, mkEntry gpu t2 f2, mkEntry gpu t1 f1] := by
    rw [run, List.foldl_cons, List.foldl_cons, List.foldl_cons, List.foldl_nil,
      step_upload_ok_valid gpu [] t1 f1 hv1,
      step_upload_ok_valid gpu [mkEntry gpu t1 f1] t2 f2 hv2,
      step_upload_ok_valid gpu [mkEntry gpu t2 f2, mkEntry gpu t1 f1] t3 f3 hv3]
  have hid : ∀ (ta tb : Nat) (fa fb : UFile), (ta, fa.name) ≠ (tb, fb.name) →
      (mkEntry gpu ta fa).id ≠ (mkEntry gpu tb fb).id := by
    intro ta tb fa fb hab h
    obtain ⟨ht, hn⟩ := (mkFileName_eq_iff ta tb fa.name fb.name).mp h
    exact hab (by rw [ht, hn])
  rw [hrun]
  refine ⟨rfl, ?_⟩
  simp only [List.map_cons, List.map_nil, List.nodup_cons, List.mem_cons,
    List.mem_singleton, List.not_mem_nil, List.nodup_nil, not_false_iff,
    and_true, not_or]
  exact ⟨⟨hid t3 t2 f3 f2 (Ne.symm h23), hid t3 t1 f3 f1 (Ne.symm h13)⟩,
    hid t2 t1 f2 f1 (Ne.symm h12)⟩

/-- Witness for the amended C7: three uploads at times 1, 1, 2 with names
"a.png", "b.png", "a.png" (pairwise distinct (timestamp, name) pairs) end
with 3 entries pairwise distinct by id. -/
theorem upload_ids_distinct_of_distinct_keys_witness :
    (run (fun b k => b ++ "/" ++ k)
        [.upload 1 { name := "a.png", mime := "image/png" } .ok,
         .upload 1 { name := "b.png", mime := "image/png" } .ok,
         .upload 2 { name := "a.png", mime := "image/png" } .ok]).length = 3 ∧
    ((run (fun b k => b ++ "/" ++ k)
        [.upload 1 { name := "a.png", mime := "image/png" } .ok,
         .upload 1 { name := "b.png", mime := "image/png" } .ok,
         .upload 2 { name := "a.png", mime := "image/png" } .ok]).map
      UploadedImage.id).Nodup :=
  upload_ids_distinct_of_distinct_keys (fun b k => b ++ "/" ++ k) 1 1 2
    { name := "a.png", mime := "image/png" }
    { name := "b.png", mime := "image/png" }
    { name := "a.png", mime := "image/png" }
    (by decide) (by decide) (by decide) (by decide) (by decide) (by decide)
